import Mathlib

/-!
Shallow embedding of the generic REST request pipeline of the `cex`
repository (Go), covering:

* the Go error model needed by `errors.Is`-style cause checks,
* the cex core request executor `Request` / `request` (src/bnc/body_unmsh_fu.go,
  second part, package cex),
* the binance futures body unmarshaler wrapper `fuBodyUnmshWrapper` /
  `fuBodyUnmshCodeMsg` (src/bnc/body_unmsh_fu.go, first part),
* the binance request maker `makePublicReq` / `signReqData`
  (src/test/bnctest/config_test.go, second part, package bnc),
* the kline positional-row unmarshaler `klineBodyUnmsher` (src/unnamed/part_000),
* the credential `Api.Sign` (src/user.go).

External collaborators (the resty transport, `s2m.ToStrMap` serialization,
`encoding/json` parsing, the HMAC implementation) are not part of src/ and are
modelled as explicit parameters carrying their outcome, so that every function
of the repository itself is translated faithfully from its source.
-/

namespace CexSpec

/-- Model of a Go `error` value as far as `errors.Is` can observe it:
a sentinel created by `errors.New` (identified by its message, distinct
sentinels having distinct names), a `fmt.Errorf` without any `%w` verb
(wrapping nothing), a `fmt.Errorf` with one `%w` operand, or one with two
`%w` operands (as in `fmt.Errorf("%w: %w", ...)`). `errors.Is` matches the
error itself or anything reachable through the wrapped operands. -/
inductive GoErr where
  | sentinel (name : String)
  | msgOnly (msg : String)
  | wrap (msg : String) (e : GoErr)
  | wrap2 (msg : String) (e1 e2 : GoErr)
deriving DecidableEq, Repr

/-- Model of `errors.Is e t` for the clean (non-nil-receiver) part of the
error chains built by this repository: `e == t`, or recursively inside the
`%w`-wrapped operands. -/
def goIs : GoErr → GoErr → Bool
  | .sentinel n, t => decide (GoErr.sentinel n = t)
  | .msgOnly m, t => decide (GoErr.msgOnly m = t)
  | .wrap m e, t => decide (GoErr.wrap m e = t) || goIs e t
  | .wrap2 m e1 e2, t => decide (GoErr.wrap2 m e1 e2 = t) || goIs e1 t || goIs e2 t

/-- Modelled from the spec: the cex package sentinel for the clock-skew
condition ("invalid/expired timestamp"); the sentinel itself is declared in
the cex package outside src/. -/
def ErrInvalidTimestamp : GoErr := .sentinel "cex: invalid timestamp"

/-- Modelled from the spec: the cex package sentinel for unexpected
exchange error codes; declared in the cex package outside src/. -/
def ErrUnexpected : GoErr := .sentinel "cex: unexpected error"

/-- Modelled from the spec: the cex package sentinel wrapping
parameter-serialization (s2m) failures; declared outside src/. -/
def ErrS2M : GoErr := .sentinel "cex: s2m error"

/-- Modelled from the spec: the cex package sentinel for JSON unmarshal
failures; declared outside src/. -/
def ErrJsonUnmarshal : GoErr := .sentinel "cex: json unmarshal error"

-- =========================================================
-- cex core types (package cex, src/bnc/body_unmsh_fu.go second part)
-- =========================================================

/-- `ReqBaseConfig`: the immutable endpoint descriptor. -/
structure ReqBaseConfig where
  baseUrl : String := ""
  path : String := ""
  method : String := ""
  isUserData : Bool := false
  userTimeInterval : Int := 0
  ipTimeInterval : Int := 0
deriving DecidableEq, Repr

/-- The observable part of a `resty.Response`: status code, status text and
raw body (bodies are modelled as strings; the Go byte slice is UTF-8). -/
structure Resp where
  statusCode : Nat := 0
  status : String := ""
  body : String := ""
deriving DecidableEq, Repr

/-- `HTTPError` from the cex package. -/
structure HTTPError where
  statusCode : Nat
  status : String
  err : GoErr
deriving DecidableEq, Repr

/-- `RespBodyUnmarshalerError` from the cex package. Its `Err` field is an
optional wrapped Go error. -/
structure RespBodyUnmarshalerError where
  cexErrCode : Int := 0
  cexErrMsg : String := ""
  err : Option GoErr := none
deriving DecidableEq, Repr

/-- Model of `(*RespBodyUnmarshalerError).Is` for a non-nil receiver:
`e.Err != nil && errors.Is(e.Err, target)`. -/
def RespBodyUnmarshalerError.isErr (e : RespBodyUnmarshalerError) (target : GoErr) : Bool :=
  match e.err with
  | some inner => goIs inner target
  | none => false

/-- The `Err` field of a `RequestError` as the executor builds it. Either a
plain chain (`SetErr` with a single `fmt.Errorf`), or the combined error of
line 204, `fmt.Errorf("cex: request, resty err: %w, http err: %w, body
unmarshal err: %w", errResty, errHttp, errBodyUnmarshal)`. In the combined
form, `fmt.Errorf` records as wrapped operands every `%w` operand whose
dynamic type implements `error`: a nil `error` interface (resty or http
operand) is skipped, but the body operand is a typed
`*RespBodyUnmarshalerError` pointer, which implements `error` even when the
pointer is nil, so it is always recorded; `body = none` stands for that
recorded typed-nil pointer. -/
inductive TopErr where
  | plain (e : GoErr)
  | combined (resty : Option GoErr) (http : Option GoErr) (body : Option RespBodyUnmarshalerError)
deriving DecidableEq, Repr

/-- `RequestError` from the cex package: the structured three-part error. -/
structure RequestError where
  reqBaseConfig : ReqBaseConfig := {}
  httpError : Option HTTPError := none
  respBodyUnmarshalerError : Option RespBodyUnmarshalerError := none
  err : Option TopErr := none
deriving DecidableEq, Repr

/-- Model of `(e *RequestError).Is(target)`, i.e.
`e.Err != nil && errors.Is(e.Err, target)`, as evaluated by the retry loop.
`errors.Is` walks the wrapped operands in order and, for each one, first
compares it with the target and then calls its own `Is` method when it has
one. In the combined form the body operand always has an `Is` method
(pointer receiver on `*RespBodyUnmarshalerError`); when the recorded pointer
is the typed nil (`body = none`), that method dereferences its nil receiver
(`e.Err != nil`), a runtime nil-pointer dereference, modelled as
`Except.error ()`. -/
def RequestError.isErr (e : RequestError) (target : GoErr) : Except Unit Bool :=
  match e.err with
  | none => .ok false
  | some (.plain g) => .ok (goIs g target)
  | some (.combined resty http body) =>
    if (resty.map fun g => goIs g target).getD false then .ok true
    else if (http.map fun g => goIs g target).getD false then .ok true
    else
      match body with
      | none => .error ()
      | some be => .ok (be.isErr target)

/-- `ReqConfig`: the endpoint configuration consumed by the executor, with
its two strategy slots. `none` models a nil function field. -/
structure ReqConfig (D : Type) where
  reqBaseConfig : ReqBaseConfig := {}
  httpStatusCodeChecker : Option (Nat → Option GoErr) := none
  respBodyUnmarshaler : Option (String → D × Option RespBodyUnmarshalerError) := none

/-- The outbound request built by a request maker (observable content of a
`resty.Request` together with its client). -/
structure OutboundRequest where
  baseUrl : String := ""
  header : List (String × String) := []
  query : String := ""
deriving DecidableEq, Repr

/-- Result triple of one call to `request`: `(*resty.Response, RespDataType,
RequestError)`. -/
abbrev Outcome (D : Type) := Option Resp × D × RequestError

/-- The four methods of the dispatch switch in `request`. -/
def isSupportedMethod (m : String) : Bool :=
  m = "GET" || m = "POST" || m = "PUT" || m = "DELETE"

/-- One attempt of the generic executor, `request` (package cex). External
collaborators enter as outcome parameters: `makeResult` is what
`reqMaker.Make` returned (`(*resty.Request, error)`), and `transport` is
what the dispatched resty call returned (`(*resty.Response, error)`); the
transport parameter is only reached when construction succeeded and the
method is one of the four supported ones, mirroring the source order. -/
def request {D : Type} [Inhabited D] (config : ReqConfig D)
    (makeResult : Option OutboundRequest × Option GoErr)
    (transport : Option Resp × Option GoErr) : Outcome D :=
  let reqErr : RequestError := { reqBaseConfig := config.reqBaseConfig }
  match makeResult.2 with
  | some e => (none, default, { reqErr with err := some (.plain (.wrap "cex: make request" e)) })
  | none =>
    if isSupportedMethod config.reqBaseConfig.method then
      match transport with
      | (none, some e) =>
        (none, default, { reqErr with err := some (.plain (.wrap "cex: request err" e)) })
      | (none, none) =>
        (none, default,
          { reqErr with err := some (.plain (.msgOnly "cex: resp and err are all nil, resty may have bugs")) })
      | (some resp, restyErr) =>
        match config.httpStatusCodeChecker with
        | none =>
          (some resp, default,
            { reqErr with err := some (.plain (.msgOnly "cex: config http status code checker is nil")) })
        | some checker =>
          match config.respBodyUnmarshaler with
          | none =>
            (some resp, default,
              { reqErr with err := some (.plain (.msgOnly "cex: config resp body unmarshaler is nil")) })
          | some unmarshaler =>
            let errHttp := checker resp.statusCode
            let pr := unmarshaler resp.body
            if errHttp = none ∧ pr.2 = none then
              (some resp, pr.1, reqErr)
            else
              (some resp, pr.1,
                { reqErr with
                  httpError := errHttp.map fun e =>
                    { statusCode := resp.statusCode, status := resp.status, err := e },
                  respBodyUnmarshalerError := pr.2,
                  err := some (.combined restyErr errHttp pr.2) })
    else
      (none, default,
        { reqErr with err := some (.plain (.msgOnly
            ("cex: http method " ++ config.reqBaseConfig.method ++ " is not supported"))) })

/-- The retry loop of `Request` (package cex): `for i := 0; i < 3; i++`
with `continue` exactly when `err.Is(ErrInvalidTimestamp)` holds and
`break` otherwise; when the loop exhausts its three iterations the last
result is returned. The returned `Nat` counts the attempts performed; the
`Except` layer propagates a runtime nil-pointer dereference raised by the
retry check itself. -/
def requestLoopAux {D : Type} (att : Nat → Outcome D) :
    Nat → Nat → Outcome D → Except Unit (Outcome D × Nat)
  | i, 0, last => .ok (last, i)
  | i, fuel + 1, _ =>
    let r := att i
    match r.2.2.isErr ErrInvalidTimestamp with
    | .error u => .error u
    | .ok true => requestLoopAux att (i + 1) fuel r
    | .ok false => .ok (r, i + 1)

/-- The generic executor `Request` (package cex): up to three sequential
attempts of `request`. The per-attempt external outcomes (request maker and
transport) are indexed by the attempt number, since each iteration performs
a fresh construction and a fresh network call. -/
def Request {D : Type} [Inhabited D] (config : ReqConfig D)
    (makeResult : Nat → Option OutboundRequest × Option GoErr)
    (transport : Nat → Option Resp × Option GoErr) : Except Unit (Outcome D × Nat) :=
  requestLoopAux (fun i => request config (makeResult i) (transport i)) 0 3
    (none, default, {})

-- =========================================================
-- binance futures body unmarshaler (package bnc, src/bnc/body_unmsh_fu.go)
-- =========================================================

/-- `CodeMsg`: the minimal binance error envelope. -/
structure CodeMsg where
  code : Int := 0
  msg : String := ""
deriving DecidableEq, Repr

/-- `fuBodyUnmshCodeMsg` (package bnc). The call
`json.Unmarshal(body, &codeMsg)` into the zero-valued envelope has its error
discarded; it is modelled by the parameter `parseCodeMsg`, whose `none`
outcome (body is not an envelope) leaves the zero value `{0, ""}` in place.
The exchange-specific table `spotCexCustomErrCodes` lives outside src/ and
is a parameter; a code missing from it yields the plain
`fmt.Errorf("%v, %v", code, msg)`. -/
def fuBodyUnmshCodeMsg (spotCexCustomErrCodes : Int → Option GoErr)
    (parseCodeMsg : String → Option CodeMsg) (body : String) :
    Option RespBodyUnmarshalerError :=
  let codeMsg := (parseCodeMsg body).getD {}
  let code := codeMsg.code
  let msg := codeMsg.msg
  if code = 0 ∨ code = 200 then
    none
  else if code > 0 then
    some { cexErrCode := code, cexErrMsg := msg,
           err := some (.wrap ("bnc: code: " ++ toString code ++ ", msg: " ++ msg) ErrUnexpected) }
  else
    let errCtm := match spotCexCustomErrCodes code with
      | some e => e
      | none => .msgOnly (toString code ++ ", " ++ msg)
    some { cexErrCode := code, cexErrMsg := msg, err := some (.wrap "bnc" errCtm) }

/-- `fuBodyUnmshWrapper` (package bnc): runs the envelope check first and
only on its success hands the body to the wrapped typed unmarshaler. -/
def fuBodyUnmshWrapper {D : Type} [Inhabited D]
    (spotCexCustomErrCodes : Int → Option GoErr)
    (parseCodeMsg : String → Option CodeMsg)
    (unmarshaler : String → D × Option RespBodyUnmarshalerError) :
    String → D × Option RespBodyUnmarshalerError :=
  fun body =>
    match fuBodyUnmshCodeMsg spotCexCustomErrCodes parseCodeMsg body with
    | some err => (default, some err)
    | none => unmarshaler body

/-- `StdBodyUnmarshaler` (package cex) specialized at `RespDataType =
string`: the reflection switch takes the `reflect.String` branch and passes
the raw bytes through verbatim, never reporting an error. -/
def stdBodyUnmarshalerString : String → String × Option RespBodyUnmarshalerError :=
  fun data => (data, none)

-- =========================================================
-- binance request maker (package bnc, src/test/bnctest/config_test.go
-- second part) and Go's url.Values / url.QueryEscape semantics
-- =========================================================

/-- UTF-8 encoding of one character, as the byte values Go iterates over. -/
def utf8CharBytes (c : Char) : List Nat :=
  let n := c.toNat
  if n < 128 then [n]
  else if n < 2048 then [192 + n / 64, 128 + n % 64]
  else if n < 65536 then [224 + n / 4096, 128 + n / 64 % 64, 128 + n % 64]
  else [240 + n / 262144, 128 + n / 4096 % 64, 128 + n / 64 % 64, 128 + n % 64]

/-- The UTF-8 bytes of a Go string. -/
def strBytes (s : String) : List Nat :=
  (s.toList.map utf8CharBytes).flatten

/-- Lexicographic order on byte lists: Go's `string` comparison used by
`sort.Strings` inside `url.Values.Encode`. -/
def natListLe : List Nat → List Nat → Bool
  | [], _ => true
  | _ :: _, [] => false
  | a :: as, b :: bs => if a < b then true else if a = b then natListLe as bs else false

/-- Key order on parameter pairs: compare the raw keys bytewise. -/
def keyLe (a b : String × String) : Bool :=
  natListLe (strBytes a.1) (strBytes b.1)

/-- Insertion step of the key sort performed by `url.Values.Encode`. -/
def insertPair (p : String × String) : List (String × String) → List (String × String)
  | [] => [p]
  | q :: rest => if keyLe p q then p :: q :: rest else q :: insertPair p rest

/-- Sorting the parameter pairs by key, as `url.Values.Encode` sorts its
keys before writing them out. -/
def sortPairs : List (String × String) → List (String × String)
  | [] => []
  | p :: rest => insertPair p (sortPairs rest)

/-- Uppercase hexadecimal digit, as `url.QueryEscape` emits. -/
def hexDigitUpper (n : Nat) : Char :=
  if n < 10 then Char.ofNat (48 + n) else Char.ofNat (55 + n)

/-- Bytes `url.QueryEscape` leaves unescaped: ASCII letters, digits and
`-`, `_`, `.`, `~`. -/
def isQueryUnreserved (b : Nat) : Bool :=
  (65 ≤ b && b ≤ 90) || (97 ≤ b && b ≤ 122) || (48 ≤ b && b ≤ 57)
    || b = 45 || b = 95 || b = 46 || b = 126

/-- One byte under `url.QueryEscape`: unreserved bytes pass through, a
space becomes `+`, every other byte becomes `%XX`. -/
def queryEscapeByte (b : Nat) : String :=
  if isQueryUnreserved b then String.singleton (Char.ofNat b)
  else if b = 32 then "+"
  else String.mk ['%', hexDigitUpper (b / 16 % 16), hexDigitUpper (b % 16)]

/-- `url.QueryEscape` over the UTF-8 bytes of a string. -/
def queryEscape (s : String) : String :=
  String.join ((strBytes s).map queryEscapeByte)

/-- `url.Values.Encode`: keys sorted bytewise, each pair written as
`escape(k)=escape(v)`, pairs joined with `&`. -/
def urlValuesEncode (l : List (String × String)) : String :=
  String.intercalate "&" ((sortPairs l).map fun kv => queryEscape kv.1 ++ "=" ++ queryEscape kv.2)

/-- `url.Values.Set`: replace the value of an existing key, otherwise add
the pair. -/
def setKV (l : List (String × String)) (k v : String) : List (String × String) :=
  if l.any fun kv => kv.1 = k then
    l.map fun kv => if kv.1 = k then (k, v) else kv
  else
    l ++ [(k, v)]

/-- The `url.Values` built by a `for k, v := range m { val.Set(k, v) }`
loop starting from `init`. -/
def urlValuesOf (init : List (String × String)) (m : List (String × String)) :
    List (String × String) :=
  m.foldl (fun acc kv => setKV acc kv.1 kv.2) init

/-- `signReqData` (package bnc): serialize the parameters, inject the
current epoch milliseconds as `timestamp`, encode everything with
`url.Values.Encode`, sign the encoded string, and append
`&signature=<sig>` literally. The s2m serialization lives outside src/ and
enters as its outcome `toStrMap`; the MAC `cex.SignByHmacSHA256ToHex` also
lives outside src/ and is, following the spec's contract of a deterministic
pure `sign(canonicalString, secretKey)` function, passed in as `mac`. -/
def signReqData (mac : String → String → String)
    (toStrMap : Except GoErr (List (String × String)))
    (nowMilli : Int) (key : String) : Except GoErr String :=
  match toStrMap with
  | .error e => .error (.wrap2 "" ErrS2M e)
  | .ok m =>
    let vals := urlValuesOf [("timestamp", toString nowMilli)] m
    let query := urlValuesEncode vals
    let sig := mac query key
    .ok (query ++ "&signature=" ++ sig)

/-- `makePublicReq` (package bnc): on a serialization failure it returns a
wrapped construction error; otherwise it builds a resty client on the base
URL, a request carrying the encoded query string, applies the option hooks
to it — and then returns `nil, nil`, discarding the request it just
built. -/
def makePublicReq (config : ReqBaseConfig)
    (toStrMap : Except GoErr (List (String × String)))
    (opts : List (OutboundRequest → OutboundRequest)) :
    Option OutboundRequest × Option GoErr :=
  match toStrMap with
  | .error e => (none, some (.wrap "bnc: make public request" e))
  | .ok m =>
    let vals := urlValuesOf [] m
    let req : OutboundRequest := { baseUrl := config.baseUrl, query := urlValuesEncode vals }
    let _ := opts.foldl (fun r o => o r) req
    (none, none)

-- =========================================================
-- kline positional-row unmarshaler (package bnc, src/unnamed/part_000)
-- =========================================================

/-- A JSON value as it sits inside a decoded `[]any` row. -/
inductive JsonVal where
  | null
  | bool (b : Bool)
  | num (n : Int)
  | str (s : String)
deriving DecidableEq, Repr

/-- `klineMapKeys` (package bnc): the twelve declared field names. -/
def klineMapKeys : List String :=
  ["openTime", "openPrice", "highPrice", "lowPrice", "closePrice", "volume",
   "closeTime", "quoteAssetVolume", "tradesNumber", "takerBuyBaseAssetVolume",
   "takerBuyQuoteAssetVolume", "unused"]

/-- `klineLastIndex` (package bnc). -/
def klineLastIndex : Nat := klineMapKeys.length - 1

/-- The row loop of `klineBodyUnmsher`: `for i, v := range kline` with
`break` once `i > klineLastIndex`, assigning `m[klineMapKeys[i]] = v`. The
twelve key names are distinct, so the built map is the association list of
the pairs in position order. -/
def klineRowMapAux (i : Nat) : List JsonVal → List (String × JsonVal)
  | [] => []
  | v :: rest =>
    if i > klineLastIndex then []
    else (klineMapKeys.getD i "", v) :: klineRowMapAux (i + 1) rest

/-- `Kline` (package bnc): the named structure a row decodes into. Its
field values are the JSON values carried over from the positional row. -/
structure Kline where
  openTime : JsonVal := .null
  openPrice : JsonVal := .null
  highPrice : JsonVal := .null
  lowPrice : JsonVal := .null
  closePrice : JsonVal := .null
  volume : JsonVal := .null
  closeTime : JsonVal := .null
  quoteAssetVolume : JsonVal := .null
  tradesNumber : JsonVal := .null
  takerBuyBaseAssetVolume : JsonVal := .null
  takerBuyQuoteAssetVolume : JsonVal := .null
  unused : JsonVal := .null
deriving DecidableEq, Repr

/-- Lookup in the marshalled map; a missing key leaves the zero value, as
`json.Unmarshal` leaves an absent field untouched. -/
def jlookup (k : String) (m : List (String × JsonVal)) : JsonVal :=
  ((m.find? fun p => p.1 == k).map Prod.snd).getD .null

/-- Modelled from the spec: the `json.Marshal(&m)` / `json.Unmarshal(d, &k)`
round trip of `klineBodyUnmsher` that moves the keyed map into the `Kline`
struct, whose declared field names are exactly `klineMapKeys`; the Kline
struct declaration itself is outside src/. -/
def klineOfMap (m : List (String × JsonVal)) : Kline :=
  { openTime := jlookup "openTime" m
    openPrice := jlookup "openPrice" m
    highPrice := jlookup "highPrice" m
    lowPrice := jlookup "lowPrice" m
    closePrice := jlookup "closePrice" m
    volume := jlookup "volume" m
    closeTime := jlookup "closeTime" m
    quoteAssetVolume := jlookup "quoteAssetVolume" m
    tradesNumber := jlookup "tradesNumber" m
    takerBuyBaseAssetVolume := jlookup "takerBuyBaseAssetVolume" m
    takerBuyQuoteAssetVolume := jlookup "takerBuyQuoteAssetVolume" m
    unused := jlookup "unused" m }

/-- `klineBodyUnmsher` (package bnc), after the initial
`json.Unmarshal(body, &data)` into `[][]any`, which is external and whose
successful outcome `rows` is the input here: each row is cut down to the
first twelve positions, keyed by `klineMapKeys`, and moved into a `Kline`;
marshalling the map back to JSON cannot fail for these values, so the only
remaining outcomes are the ones below. -/
def klineBodyUnmsher (rows : List (List JsonVal)) : Except GoErr (List Kline) :=
  .ok (rows.map fun kline => klineOfMap (klineRowMapAux 0 kline))

-- =========================================================
-- credential (package cex, src/user.go)
-- =========================================================

/-- `Api` (package cex): the credential, with its optional signing
function. A signer returns a Go byte slice, which may itself be nil, hence
the inner `Option`. -/
structure Api where
  apiKey : String := ""
  secretKey : String := ""
  passphrase : String := ""
  signer : Option (String → String → Option (List Nat)) := none

/-- `Api.Sign` (package cex): calls the signer when one is configured and
returns the nil slice otherwise. -/
def Api.Sign (api : Api) (payload key : String) : Option (List Nat) :=
  match api.signer with
  | some s => s payload key
  | none => none

-- =========================================================
-- Theorems
-- =========================================================

/-- Claim C9: calling the credential's `Sign` when no signer function is
configured does not crash: it returns the absent (nil) signature, for all
payloads and keys. -/
theorem c9_sign_without_signer (api : Api) (payload key : String)
    (h : api.signer = none) : api.Sign payload key = none := by
  simp [Api.Sign, h]

theorem c9_sign_without_signer_witness :
    ({} : Api).signer = none ∧ Api.Sign {} "symbol=ETHUSDT" "k" = none :=
  ⟨rfl, c9_sign_without_signer {} "symbol=ETHUSDT" "k" rfl⟩

/-- Claim C5: a response body that fails to parse as the minimal
`CodeMsg` envelope (the ignored `json.Unmarshal` leaves the zero-valued
envelope) is treated as not an error envelope: the futures wrapper hands
the body to the wrapped typed unmarshaler instead of failing. -/
theorem c5_envelope_parse_failure_falls_through {D : Type} [Inhabited D]
    (table : Int → Option GoErr) (parse : String → Option CodeMsg)
    (unm : String → D × Option RespBodyUnmarshalerError) (body : String)
    (h : parse body = none) :
    fuBodyUnmshWrapper table parse unm body = unm body := by
  simp [fuBodyUnmshWrapper, fuBodyUnmshCodeMsg, h]

theorem c5_envelope_parse_failure_falls_through_witness :
    (fun _ : String => (none : Option CodeMsg)) "<html>bad gateway</html>" = none ∧
    fuBodyUnmshWrapper (D := String) (fun _ => none) (fun _ => none)
        stdBodyUnmarshalerString "<html>bad gateway</html>"
      = stdBodyUnmarshalerString "<html>bad gateway</html>" :=
  ⟨rfl, c5_envelope_parse_failure_falls_through (fun _ => none) (fun _ => none)
    stdBodyUnmarshalerString "<html>bad gateway</html>" rfl⟩

/-- Claim C10: a decoded envelope code that is strictly positive and not
200 makes the futures unmarshaler return a structured error wrapping
`ErrUnexpected`, carrying the raw code and message, without ever invoking
the wrapped typed unmarshaler (the result is the same for every wrapped
unmarshaler, with the zero payload); and the envelope check succeeds
exactly for the sentinel codes 0 and 200. -/
theorem c10_positive_code_is_unexpected :
    (∀ (D : Type) [Inhabited D] (table : Int → Option GoErr)
       (parse : String → Option CodeMsg)
       (unm : String → D × Option RespBodyUnmarshalerError) (body : String)
       (c : Int) (m : String),
       parse body = some { code := c, msg := m } → 0 < c → c ≠ 200 →
       fuBodyUnmshWrapper table parse unm body =
         (default, some { cexErrCode := c, cexErrMsg := m,
                          err := some (.wrap ("bnc: code: " ++ toString c ++ ", msg: " ++ m)
                            ErrUnexpected) })) ∧
    (∀ (table : Int → Option GoErr) (parse : String → Option CodeMsg)
       (body : String) (c : Int) (m : String),
       parse body = some { code := c, msg := m } →
       (fuBodyUnmshCodeMsg table parse body = none ↔ c = 0 ∨ c = 200)) := by
  constructor
  · intro D _ table parse unm body c m hp hpos hne
    have h1 : ¬ (c = 0 ∨ c = 200) := by rintro (rfl | rfl) <;> omega
    simp [fuBodyUnmshWrapper, fuBodyUnmshCodeMsg, hp, h1, hpos]
  · intro table parse body c m hp
    by_cases hor : c = 0 ∨ c = 200
    · simp [fuBodyUnmshCodeMsg, hp, hor]
    · simp only [fuBodyUnmshCodeMsg, hp, Option.getD_some, if_neg hor]
      constructor
      · intro hnone
        split at hnone <;> simp at hnone
      · intro h; exact absurd h hor

theorem c10_positive_code_is_unexpected_witness :
    ((fun _ : String => some ({ code := 300, msg := "oops" } : CodeMsg)) "x"
        = some { code := 300, msg := "oops" } ∧ (0 : Int) < 300 ∧ (300 : Int) ≠ 200) ∧
    fuBodyUnmshWrapper (D := String) (fun _ => none) (fun _ => some { code := 300, msg := "oops" })
        stdBodyUnmarshalerString "x"
      = (default, some { cexErrCode := 300, cexErrMsg := "oops",
                         err := some (.wrap ("bnc: code: " ++ toString (300 : Int) ++ ", msg: " ++ "oops")
                           ErrUnexpected) }) ∧
    (fuBodyUnmshCodeMsg (fun _ => none) (fun _ => some { code := 300, msg := "oops" }) "x" = none
      ↔ (300 : Int) = 0 ∨ (300 : Int) = 200) :=
  ⟨⟨rfl, by decide, by decide⟩,
   c10_positive_code_is_unexpected.1 String (fun _ => none)
     (fun _ => some { code := 300, msg := "oops" }) stdBodyUnmarshalerString "x" 300 "oops"
     rfl (by decide) (by decide),
   c10_positive_code_is_unexpected.2 (fun _ => none)
     (fun _ => some { code := 300, msg := "oops" }) "x" 300 "oops" rfl⟩

/-- Claim C2 (code bug): for a non-authenticated endpoint with parameters
that serialize without error, `makePublicReq` builds the outbound request
and then returns `nil, nil` — no error, but also no request; the claimed
fully-formed request is discarded. The second conjunct evaluates the code
at a concrete failing input. -/
theorem c2_public_request_discarded :
    (∀ (config : ReqBaseConfig) (m : List (String × String))
       (opts : List (OutboundRequest → OutboundRequest)),
       makePublicReq config (.ok m) opts = (none, none)) ∧
    makePublicReq { baseUrl := "https://api.binance.com", method := "GET" }
      (.ok [("symbol", "ETHUSDT")]) [] = (none, none) :=
  ⟨fun _ _ _ => rfl, rfl⟩

/-- The row loop of `klineBodyUnmsher` pairs the declared field names,
from position `i` on, with the row values in order, stopping after the
last declared name. -/
theorem klineRowMapAux_eq_zip :
    ∀ (row : List JsonVal) (i : Nat), klineRowMapAux i row = (klineMapKeys.drop i).zip row := by
  intro row
  induction row with
  | nil => intro i; simp [klineRowMapAux]
  | cons v rest ih =>
    intro i
    by_cases h : i > klineLastIndex
    · have hlen : klineMapKeys.length = 12 := rfl
      have hd : klineMapKeys.drop i = [] := by
        apply List.drop_eq_nil_of_le
        rw [hlen]
        simp [klineLastIndex] at h
        omega
      simp [klineRowMapAux, h, hd]
    · have hlen : klineMapKeys.length = 12 := rfl
      have hi : i < klineMapKeys.length := by
        rw [hlen]
        simp [klineLastIndex] at h
        omega
      have hdrop : klineMapKeys.drop i = klineMapKeys.getD i "" :: klineMapKeys.drop (i + 1) := by
        rw [List.getD_eq_getElem _ _ hi]
        exact List.drop_eq_getElem_cons hi
      simp [klineRowMapAux, h, hdrop, ih]

/-- Claim C6: the kline unmarshaler maps row positions 0..11 to the twelve
declared field names in order (the built map is the zip of the names with
the row) and silently discards positions past index 11: a row with extra
trailing positions decodes successfully into the `Kline` built from its
first twelve values. -/
theorem c6_kline_positional_mapping :
    (∀ row : List JsonVal, klineRowMapAux 0 row = klineMapKeys.zip row) ∧
    (∀ (v0 v1 v2 v3 v4 v5 v6 v7 v8 v9 v10 v11 : JsonVal) (extra : List JsonVal),
      klineBodyUnmsher
          [v0 :: v1 :: v2 :: v3 :: v4 :: v5 :: v6 :: v7 :: v8 :: v9 :: v10 :: v11 :: extra] =
        .ok [{ openTime := v0, openPrice := v1, highPrice := v2, lowPrice := v3,
               closePrice := v4, volume := v5, closeTime := v6, quoteAssetVolume := v7,
               tradesNumber := v8, takerBuyBaseAssetVolume := v9,
               takerBuyQuoteAssetVolume := v10, unused := v11 }]) := by
  constructor
  · intro row
    simpa using klineRowMapAux_eq_zip row 0
  · intro v0 v1 v2 v3 v4 v5 v6 v7 v8 v9 v10 v11 extra
    have h := klineRowMapAux_eq_zip
      (v0 :: v1 :: v2 :: v3 :: v4 :: v5 :: v6 :: v7 :: v8 :: v9 :: v10 :: v11 :: extra) 0
    simp only [List.drop_zero] at h
    simp only [klineBodyUnmsher, List.map_cons, List.map_nil, h]
    rfl

/-- Claim C4: in an attempt that obtains a transport response, with a
configured status checker and body unmarshaler, both are evaluated
regardless of each other's outcome: the returned payload is always the
unmarshaler's payload; the attempt succeeds (pristine error) exactly when
both report no error, and otherwise each failing component's error is
attached (`httpError` iff the checker failed, the body error iff the
unmarshaler failed) and the composite `Err` combines the resty, HTTP and
body errors, each slot optional. -/
theorem c4_status_and_body_both_checked {D : Type} [Inhabited D]
    (base : ReqBaseConfig) (checker : Nat → Option GoErr)
    (unm : String → D × Option RespBodyUnmarshalerError)
    (mr : Option OutboundRequest) (restyErr : Option GoErr) (resp : Resp)
    (hm : isSupportedMethod base.method = true) :
    request { reqBaseConfig := base, httpStatusCodeChecker := some checker,
              respBodyUnmarshaler := some unm } (mr, none) (some resp, restyErr) =
      (some resp, (unm resp.body).1,
        if checker resp.statusCode = none ∧ (unm resp.body).2 = none then
          { reqBaseConfig := base }
        else
          { reqBaseConfig := base,
            httpError := (checker resp.statusCode).map fun e =>
              { statusCode := resp.statusCode, status := resp.status, err := e },
            respBodyUnmarshalerError := (unm resp.body).2,
            err := some (.combined restyErr (checker resp.statusCode) (unm resp.body).2) }) := by
  by_cases hc : checker resp.statusCode = none ∧ (unm resp.body).2 = none
  · simp [request, hm, hc]
  · simp [request, hm, hc]

theorem c4_status_and_body_both_checked_witness :
    isSupportedMethod "GET" = true ∧
    request (D := String)
        { reqBaseConfig := { method := "GET" },
          httpStatusCodeChecker := some fun st =>
            if st = 200 then none else some (.msgOnly "bnc: http code is abnormal"),
          respBodyUnmarshaler := some stdBodyUnmarshalerString }
        (some {}, none)
        (some { statusCode := 404, status := "404 Not Found", body := "pong" },
         some (.msgOnly "resty: not found")) =
      (some { statusCode := 404, status := "404 Not Found", body := "pong" },
        (stdBodyUnmarshalerString "pong").1,
        if (if (404 : Nat) = 200 then none else some (GoErr.msgOnly "bnc: http code is abnormal"))
              = none
            ∧ (stdBodyUnmarshalerString "pong").2 = none then
          { reqBaseConfig := { method := "GET" } }
        else
          { reqBaseConfig := { method := "GET" },
            httpError := ((if (404 : Nat) = 200 then none
                else some (GoErr.msgOnly "bnc: http code is abnormal")).map fun e =>
              { statusCode := 404, status := "404 Not Found", err := e }),
            respBodyUnmarshalerError := (stdBodyUnmarshalerString "pong").2,
            err := some (.combined (some (.msgOnly "resty: not found"))
              (if (404 : Nat) = 200 then none else some (GoErr.msgOnly "bnc: http code is abnormal"))
              (stdBodyUnmarshalerString "pong").2) }) :=
  ⟨rfl, c4_status_and_body_both_checked { method := "GET" }
    (fun st => if st = 200 then none else some (.msgOnly "bnc: http code is abnormal"))
    stdBodyUnmarshalerString (some {}) (some (.msgOnly "resty: not found"))
    { statusCode := 404, status := "404 Not Found", body := "pong" } rfl⟩

/-- Claim C3 (code bug): an attempt whose HTTP status checker reports an
error while the body unmarshaler reports none (here: status 404, string
payload type, whose pass-through unmarshaler never fails) produces the
combined attempt error of the source's line
`reqErr.Err = fmt.Errorf("cex: request, resty err: %w, ...")`, in which the
`%w` operand `errBodyUnmarshal` is a typed nil `*RespBodyUnmarshalerError`
pointer and is therefore recorded as a wrapped error; the retry check
`err.Is(ErrInvalidTimestamp)` of the loop then calls that value's `Is`
method on its nil receiver and dereferences it — a runtime nil-pointer
dereference (modelled `Except.error ()`) instead of the claimed immediate
termination returning the error. -/
theorem c3_retry_check_nil_dereference :
    Request (D := String)
      { reqBaseConfig := { method := "GET" },
        httpStatusCodeChecker := some fun st =>
          if st = 200 then none else some (.msgOnly "bnc: http code is abnormal"),
        respBodyUnmarshaler := some stdBodyUnmarshalerString }
      (fun _ => (some {}, none))
      (fun _ => (some { statusCode := 404, status := "404 Not Found", body := "pong" },
        some (.msgOnly "resty: not found")))
      = .error () := rfl

/-- Claim C7 (amended): when request construction fails, the attempt
returns the wrapped construction error with no transport dependence (the
transport outcome is universally quantified and absent from the result),
and — provided the construction error does not match
`ErrInvalidTimestamp` — the executor stops after one attempt. The proviso
is forced: the loop's only retry test is `err.Is(ErrInvalidTimestamp)`, so
a maker whose error wraps that sentinel is retried (see the
counterexample). -/
theorem c7_construction_failure_no_transport {D : Type} [Inhabited D]
    (config : ReqConfig D) (mr : Option OutboundRequest) (e : GoErr)
    (transport : Option Resp × Option GoErr) :
    request config (mr, some e) transport =
      (none, default, { reqBaseConfig := config.reqBaseConfig,
                        err := some (.plain (.wrap "cex: make request" e)) }) ∧
    (goIs e ErrInvalidTimestamp = false →
      ∀ (mrs : Nat → Option OutboundRequest)
        (transports : Nat → Option Resp × Option GoErr),
        Request config (fun i => (mrs i, some e)) transports =
          .ok ((none, default, { reqBaseConfig := config.reqBaseConfig,
                                 err := some (.plain (.wrap "cex: make request" e)) }), 1)) := by
  constructor
  · rfl
  · intro hno mrs transports
    have hwrap : GoErr.wrap "cex: make request" e ≠ ErrInvalidTimestamp := by
      simp [ErrInvalidTimestamp]
    simp [Request, requestLoopAux, request, RequestError.isErr, goIs, hwrap, hno]

theorem c7_construction_failure_no_transport_witness :
    goIs (.wrap "bnc: make public request" (.sentinel "s2m: unsupported type"))
        ErrInvalidTimestamp = false ∧
    request (D := String) { reqBaseConfig := { method := "GET" } }
        (none, some (.wrap "bnc: make public request" (.sentinel "s2m: unsupported type")))
        (some { statusCode := 200 }, none) =
      (none, default, { reqBaseConfig := { method := "GET" },
                        err := some (.plain (.wrap "cex: make request"
                          (.wrap "bnc: make public request" (.sentinel "s2m: unsupported type")))) }) ∧
    Request (D := String) { reqBaseConfig := { method := "GET" } }
        (fun _ => ((none : Option OutboundRequest),
          some (.wrap "bnc: make public request" (.sentinel "s2m: unsupported type"))))
        (fun _ => ((none : Option Resp), (none : Option GoErr))) =
      .ok ((none, default, { reqBaseConfig := { method := "GET" },
                             err := some (.plain (.wrap "cex: make request"
                               (.wrap "bnc: make public request"
                                 (.sentinel "s2m: unsupported type")))) }), 1) := by
  refine ⟨rfl, ?_, ?_⟩
  · exact (c7_construction_failure_no_transport { reqBaseConfig := { method := "GET" } }
      none (.wrap "bnc: make public request" (.sentinel "s2m: unsupported type"))
      (some { statusCode := 200 }, none)).1
  · exact (c7_construction_failure_no_transport { reqBaseConfig := { method := "GET" } }
      none (.wrap "bnc: make public request" (.sentinel "s2m: unsupported type"))
      (none, none)).2 rfl (fun _ => none) (fun _ => (none, none))

/-- Claim C7 counterexample: the claim's "without retrying" fails as
stated. A request maker whose construction error is `ErrInvalidTimestamp`
itself makes every attempt fail construction, yet the executor performs
all three attempts (the retry test `err.Is(ErrInvalidTimestamp)` does not
distinguish construction errors), instead of the claimed single
non-retried attempt; no transport call happens in any of them. -/
theorem c7_construction_failure_counterexample :
    Request (D := String) { reqBaseConfig := { method := "GET" } }
      (fun _ => (none, some ErrInvalidTimestamp))
      (fun _ => (none, none))
      = .ok ((none, "", { reqBaseConfig := { method := "GET" },
                          err := some (.plain (.wrap "cex: make request"
                            ErrInvalidTimestamp)) }), 3) := rfl

/-- Claim C8 (amended): an attempt in which the transport returns no
response is terminal in the stated way: with a transport error, the result
is the wrapped transport error; with neither response nor error, it is the
distinct internal-invariant error, which wraps nothing and is never
retried; the transport-error case is not retried provided the transport
error does not match `ErrInvalidTimestamp` (the proviso is forced, see the
counterexample). -/
theorem c8_no_response_terminal {D : Type} [Inhabited D]
    (config : ReqConfig D) (mr : Option OutboundRequest) (e : GoErr)
    (hm : isSupportedMethod config.reqBaseConfig.method = true) :
    request config (mr, none) (none, some e) =
      (none, default, { reqBaseConfig := config.reqBaseConfig,
                        err := some (.plain (.wrap "cex: request err" e)) }) ∧
    request config (mr, none) (none, none) =
      (none, default, { reqBaseConfig := config.reqBaseConfig,
                        err := some (.plain (.msgOnly
                          "cex: resp and err are all nil, resty may have bugs")) }) ∧
    (goIs e ErrInvalidTimestamp = false →
      ∀ mrs : Nat → Option OutboundRequest,
        Request config (fun i => (mrs i, none)) (fun _ => (none, some e)) =
          .ok ((none, default, { reqBaseConfig := config.reqBaseConfig,
                                 err := some (.plain (.wrap "cex: request err" e)) }), 1)) ∧
    (∀ mrs : Nat → Option OutboundRequest,
      Request config (fun i => (mrs i, none)) (fun _ => (none, none)) =
        .ok ((none, default, { reqBaseConfig := config.reqBaseConfig,
                               err := some (.plain (.msgOnly
                                 "cex: resp and err are all nil, resty may have bugs")) }), 1)) := by
  refine ⟨?_, ?_, ?_, ?_⟩
  · simp [request, hm]
  · simp [request, hm]
  · intro hno mrs
    have hwrap : GoErr.wrap "cex: request err" e ≠ ErrInvalidTimestamp := by
      simp [ErrInvalidTimestamp]
    simp [Request, requestLoopAux, request, RequestError.isErr, goIs, hm, hwrap, hno]
  · intro mrs
    have hmsg : GoErr.msgOnly "cex: resp and err are all nil, resty may have bugs"
        ≠ ErrInvalidTimestamp := by
      simp [ErrInvalidTimestamp]
    simp [Request, requestLoopAux, request, RequestError.isErr, goIs, hm, hmsg]

theorem c8_no_response_terminal_witness :
    isSupportedMethod "DELETE" = true ∧
    goIs (.msgOnly "dial tcp: connection refused") ErrInvalidTimestamp = false ∧
    Request (D := String) { reqBaseConfig := { method := "DELETE" } }
        (fun _ => ((some {} : Option OutboundRequest), (none : Option GoErr)))
        (fun _ => ((none : Option Resp), some (GoErr.msgOnly "dial tcp: connection refused"))) =
      .ok ((none, default, { reqBaseConfig := { method := "DELETE" },
                             err := some (.plain (.wrap "cex: request err"
                               (.msgOnly "dial tcp: connection refused"))) }), 1) ∧
    Request (D := String) { reqBaseConfig := { method := "DELETE" } }
        (fun _ => ((some {} : Option OutboundRequest), (none : Option GoErr)))
        (fun _ => ((none : Option Resp), (none : Option GoErr))) =
      .ok ((none, default, { reqBaseConfig := { method := "DELETE" },
                             err := some (.plain (.msgOnly
                               "cex: resp and err are all nil, resty may have bugs")) }), 1) := by
  refine ⟨rfl, rfl, ?_, ?_⟩
  · exact (c8_no_response_terminal { reqBaseConfig := { method := "DELETE" } }
      (some {}) (.msgOnly "dial tcp: connection refused") rfl).2.2.1 rfl (fun _ => some {})
  · exact (c8_no_response_terminal { reqBaseConfig := { method := "DELETE" } }
      (some {}) (.msgOnly "dial tcp: connection refused") rfl).2.2.2 (fun _ => some {})

/-- Claim C8 counterexample: the claim's "terminates without retry" fails
as stated. A transport failure (no response) whose error is
`ErrInvalidTimestamp` itself is retried by the loop — three attempts are
performed — because the retry test `err.Is(ErrInvalidTimestamp)` inspects
the wrapped transport error too. -/
theorem c8_no_response_counterexample :
    Request (D := String) { reqBaseConfig := { method := "GET" } }
      (fun _ => (some {}, none))
      (fun _ => (none, some ErrInvalidTimestamp))
      = .ok ((none, "", { reqBaseConfig := { method := "GET" },
                          err := some (.plain (.wrap "cex: request err"
                            ErrInvalidTimestamp)) }), 3) := rfl

/-- Bytewise lexicographic order is total. -/
theorem natListLe_total : ∀ a b : List Nat, natListLe a b = true ∨ natListLe b a = true := by
  intro a
  induction a with
  | nil => intro b; left; rfl
  | cons x xs ih =>
    intro b
    cases b with
    | nil => right; rfl
    | cons y ys =>
      by_cases hxy : x < y
      · left; simp [natListLe, hxy]
      · by_cases hyx : y < x
        · right; simp [natListLe, hyx]
        · have hxy2 : x = y := by omega
          subst hxy2
          rcases ih ys with h | h
          · left; simp [natListLe, h]
          · right; simp [natListLe, h]

/-- Bytewise lexicographic order is transitive. -/
theorem natListLe_trans : ∀ a b c : List Nat,
    natListLe a b = true → natListLe b c = true → natListLe a c = true := by
  intro a
  induction a with
  | nil => intro b c _ _; rfl
  | cons x xs ih =>
    intro b c hab hbc
    cases b with
    | nil => simp [natListLe] at hab
    | cons y ys =>
      cases c with
      | nil => simp [natListLe] at hbc
      | cons z zs =>
        simp only [natListLe] at hab hbc ⊢
        split at hab
        · -- x < y
          rename_i hxy
          split at hbc
          · rename_i hyz
            have : x < z := by omega
            simp [this]
          · split at hbc
            · rename_i hyz
              subst hyz
              simp [hxy]
            · exact absurd hbc (by simp)
        · split at hab
          · rename_i hxy hxy2
            subst hxy2
            split at hbc
            · rename_i hyz
              simp [hyz]
            · split at hbc
              · rename_i hyz
                subst hyz
                simp only [if_neg hxy, if_pos rfl]
                exact ih ys zs hab hbc
              · exact absurd hbc (by simp)
          · exact absurd hab (by simp)

theorem keyLe_total (a b : String × String) : keyLe a b = true ∨ keyLe b a = true :=
  natListLe_total (strBytes a.1) (strBytes b.1)

theorem keyLe_trans (a b c : String × String)
    (hab : keyLe a b = true) (hbc : keyLe b c = true) : keyLe a c = true :=
  natListLe_trans _ _ _ hab hbc

/-- Elements of an insertion are the inserted pair or old elements. -/
theorem mem_insertPair (p x : String × String) :
    ∀ l : List (String × String), x ∈ insertPair p l → x = p ∨ x ∈ l := by
  intro l
  induction l with
  | nil => intro h; simp [insertPair] at h; exact Or.inl h
  | cons q rest ih =>
    intro h
    simp only [insertPair] at h
    split at h
    · rcases List.mem_cons.mp h with h | h
      · exact Or.inl h
      · exact Or.inr h
    · rcases List.mem_cons.mp h with h | h
      · exact Or.inr (h ▸ List.mem_cons_self q rest)
      · rcases ih h with h | h
        · exact Or.inl h
        · exact Or.inr (List.mem_cons_of_mem q h)

/-- Insertion preserves sortedness by key. -/
theorem pairwise_insertPair (p : String × String) :
    ∀ l : List (String × String), l.Pairwise (fun a b => keyLe a b = true) →
      (insertPair p l).Pairwise (fun a b => keyLe a b = true) := by
  intro l
  induction l with
  | nil => intro _; simp [insertPair]
  | cons q rest ih =>
    intro h
    rcases List.pairwise_cons.mp h with ⟨hq, hrest⟩
    simp only [insertPair]
    split
    · rename_i hpq
      refine List.pairwise_cons.mpr ⟨?_, h⟩
      intro x hx
      rcases List.mem_cons.mp hx with h1 | h1
      · exact h1 ▸ hpq
      · exact keyLe_trans p q x hpq (hq x h1)
    · rename_i hpq
      have hqp : keyLe q p = true := by
        rcases keyLe_total p q with h1 | h1
        · exact absurd h1 hpq
        · exact h1
      refine List.pairwise_cons.mpr ⟨?_, ih hrest⟩
      intro x hx
      rcases mem_insertPair p x rest hx with h1 | h1
      · exact h1 ▸ hqp
      · exact hq x h1

/-- The key sort performed inside the encoder always yields a list sorted
by bytewise key order. -/
theorem pairwise_sortPairs :
    ∀ l : List (String × String), (sortPairs l).Pairwise (fun a b => keyLe a b = true) := by
  intro l
  induction l with
  | nil => simp [sortPairs]
  | cons p rest ih => exact pairwise_insertPair p (sortPairs rest) ih

/-- `url.Values.Set` with a different key preserves a pair. -/
theorem mem_setKV_of_ne (l : List (String × String)) (k v k2 v2 : String)
    (hmem : (k, v) ∈ l) (hne : k2 ≠ k) : (k, v) ∈ setKV l k2 v2 := by
  unfold setKV
  split
  · refine List.mem_map.mpr ⟨(k, v), hmem, ?_⟩
    simp [Ne.symm hne]
  · exact List.mem_append_left _ hmem

/-- A pair already present survives a `Set` loop over keys different from
its own. -/
theorem mem_urlValuesOf :
    ∀ (m acc : List (String × String)) (k v : String),
      (k, v) ∈ acc → (∀ kv ∈ m, kv.1 ≠ k) → (k, v) ∈ urlValuesOf acc m := by
  intro m
  induction m with
  | nil => intro acc k v h _; exact h
  | cons kv0 rest ih =>
    intro acc k v h hne
    have h1 : (k, v) ∈ setKV acc kv0.1 kv0.2 :=
      mem_setKV_of_ne acc k v kv0.1 kv0.2 h (hne kv0 (List.mem_cons_self kv0 rest))
    exact ih (setKV acc kv0.1 kv0.2) k v h1 (fun kv hkv => hne kv (List.mem_cons_of_mem kv0 hkv))

/-- Claim C1: for parameters that serialize successfully and do not carry
a `timestamp` key of their own, the authenticated query string built by
`signReqData` is the canonical `url.Values` encoding of the parameters
with the injected timestamp — whose pair list the encoder sorts into
bytewise (lexicographic) key order — followed by the literal last
parameter `&signature=<sig>`, where `<sig>` is the MAC of exactly that
encoded string under the secret key; in particular, for parameters
`{symbol: ETHUSDT}` with secret key `k` at a fixed timestamp, the query is
`symbol=ETHUSDT&timestamp=<ms>&signature=<sig>` with `<sig>` the MAC of
`symbol=ETHUSDT&timestamp=<ms>` under `k`. -/
theorem c1_signed_query_canonical_signature_last :
    (∀ (mac : String → String → String) (m : List (String × String)) (ms : Int) (key : String),
      "timestamp" ∉ m.map Prod.fst →
      ∃ enc, signReqData mac (.ok m) ms key = .ok (enc ++ "&signature=" ++ mac enc key)
        ∧ enc = urlValuesEncode (urlValuesOf [("timestamp", toString ms)] m)
        ∧ ("timestamp", toString ms) ∈ urlValuesOf [("timestamp", toString ms)] m
        ∧ (sortPairs (urlValuesOf [("timestamp", toString ms)] m)).Pairwise
            (fun a b => keyLe a b = true)) ∧
    (∀ mac : String → String → String,
      signReqData mac (.ok [("symbol", "ETHUSDT")]) 1499827319559 "k" =
        .ok ("symbol=ETHUSDT&timestamp=1499827319559&signature="
          ++ mac "symbol=ETHUSDT&timestamp=1499827319559" "k")) := by
  constructor
  · intro mac m ms key hts
    refine ⟨urlValuesEncode (urlValuesOf [("timestamp", toString ms)] m), rfl, rfl, ?_, ?_⟩
    · apply mem_urlValuesOf m [("timestamp", toString ms)] "timestamp" (toString ms)
        (List.mem_singleton.mpr rfl)
      intro kv hkv h1
      exact hts (List.mem_map.mpr ⟨kv, hkv, h1⟩)
    · exact pairwise_sortPairs _
  · intro mac
    rfl

theorem c1_signed_query_canonical_signature_last_witness :
    ("timestamp" ∉ ([("symbol", "ETHUSDT")].map Prod.fst)) ∧
    (∃ enc, signReqData (fun _ _ => "00ff") (.ok [("symbol", "ETHUSDT")]) 1499827319559 "k"
        = .ok (enc ++ "&signature=" ++ (fun _ _ => "00ff") enc "k")
      ∧ enc = urlValuesEncode (urlValuesOf [("timestamp", toString (1499827319559 : Int))]
          [("symbol", "ETHUSDT")])
      ∧ ("timestamp", toString (1499827319559 : Int))
          ∈ urlValuesOf [("timestamp", toString (1499827319559 : Int))] [("symbol", "ETHUSDT")]
      ∧ (sortPairs (urlValuesOf [("timestamp", toString (1499827319559 : Int))]
          [("symbol", "ETHUSDT")])).Pairwise (fun a b => keyLe a b = true)) ∧
    signReqData (fun _ _ => "00ff") (.ok [("symbol", "ETHUSDT")]) 1499827319559 "k" =
      .ok ("symbol=ETHUSDT&timestamp=1499827319559&signature="
        ++ (fun _ _ => "00ff") "symbol=ETHUSDT&timestamp=1499827319559" "k") :=
  ⟨by decide,
   c1_signed_query_canonical_signature_last.1 (fun _ _ => "00ff") [("symbol", "ETHUSDT")]
     1499827319559 "k" (by decide),
   c1_signed_query_canonical_signature_last.2 (fun _ _ => "00ff")⟩

end CexSpec
